import Mathlib

/-!
Verification development for the StewardView timelapse regeneration and
caching subsystem (src/backend/services/timelapseService.js and the
generate-timelapse route handler of src/backend/routes/api.js).

The remote object store, the process-local lock table and the failure
behaviour of every asynchronous operation are modelled explicitly:

* `St` is the combined state: the object store (a list of
  (organization, trail)-keyed objects), the in-process regeneration lock
  table, and a counter used to mint fresh object ids on upload.
* `Env` is a failure oracle fixing, for one execution, which store and
  image operations fail.  The JavaScript source catches individual
  failures at exactly the places modelled here.
* Every service function returns, besides its result and the new state,
  the list of `Effect`s (store reads/writes and encode steps) it
  performed, in order; the theorems about "what work a call performs"
  are stated over this trace.
-/

namespace StewardView

/-- A lock-table / store key: (organization slug, trail name). -/
abbrev Key := String × String

/-- One object held by the remote store, with the metadata fields the
service reads (id, name, mimeType, createdTime). -/
structure StoreObj where
  id : String
  name : String
  mimeType : String
  createdTime : Int
  deriving DecidableEq

/-- Combined state: object store contents, the process-local
regeneration lock table (`this.regenerationLocks`), and a counter used
to mint fresh object ids for uploads. -/
structure St where
  store : List (Key × StoreObj)
  locks : List Key
  nextId : Nat
  deriving DecidableEq

/-- Failure oracle for one execution: which asynchronous operations
fail.  Each field corresponds to one kind of operation the JavaScript
source wraps in its own try/catch or error callback. -/
structure Env where
  listFails : Key → Bool
  gifEnumFails : Key → Bool
  gifLookupFails : Key → Bool
  deleteFails : String → Bool
  downloadFails : String → Bool
  dimLoadFails : Bool
  frameFails : Nat → Bool
  writeFails : Bool
  uploadFails : Key → Bool
  now : Int

/-- Observable operations a call performs, in order. -/
inductive Effect where
  | listTrail (k : Key)
  | download (id : String)
  | delete (id : String)
  | upload (id : String)
  | encode (frames : List String)
  deriving DecidableEq

/-- Store-mutating effects (object deletion and upload). -/
def Effect.isWrite : Effect → Bool
  | .delete _ => true
  | .upload _ => true
  | _ => false

/-- Kernel-reducible model of `String.startsWith`. -/
def strStartsWith (s pre : String) : Bool :=
  pre.data.isPrefixOf s.data

/-- driveService.listFilesInTrail: all objects of one trail folder. -/
def listFilesInTrail (st : St) (k : Key) : List StoreObj :=
  (st.store.filter (fun p => p.1 == k)).map Prod.snd

/-- The filter applied in generateTimeLapse and regenerateAndStore:
`file.mimeType && file.mimeType.startsWith('image/') && file.name !== '_timelapse.gif'`. -/
def isImageFile (f : StoreObj) : Bool :=
  f.mimeType != "" && strStartsWith f.mimeType "image/" && f.name != "_timelapse.gif"

/-- An object is a cache entry when it carries the reserved name. -/
def isCacheEntry (f : StoreObj) : Bool :=
  f.name == "_timelapse.gif"

/-- Modelled from the spec: `driveService.getAllTimelapseGifs` is not
under src/; per the spec it enumerates all existing cached-animation
objects (reserved name `_timelapse.gif`) for the trail. -/
def getAllTimelapseGifs (st : St) (k : Key) : List StoreObj :=
  (listFilesInTrail st k).filter isCacheEntry

/-- Modelled from the spec: `driveService.getTimelapseGif` is not under
src/; per the spec the lookup path checks the store for an existing
cache entry for the trail. -/
def getTimelapseGif (st : St) (k : Key) : Option StoreObj :=
  (getAllTimelapseGifs st k).head?

/-- Modelled from the spec: `driveService.deleteFile` is not under
src/; per the spec it removes the object with the given id from the
store. -/
def deleteObject (st : St) (i : String) : St :=
  { st with store := st.store.filter (fun p => p.2.id != i) }

/-- The fresh cache-entry object minted by an upload. -/
def freshGif (env : Env) (st : St) : StoreObj :=
  { id := "gif-" ++ toString st.nextId, name := "_timelapse.gif",
    mimeType := "image/gif", createdTime := env.now }

/-- Modelled from the spec: `driveService.uploadTimelapseGif` is not
under src/; per the spec it publishes the freshly encoded animation as
a new cache entry (reserved name) in the trail's container. -/
def uploadTimelapseGif (env : Env) (st : St) (k : Key) : St × StoreObj :=
  let g := freshGif env st
  ({ st with store := st.store ++ [(k, g)], nextId := st.nextId + 1 }, g)

/-- The local scratch path for a downloaded frame:
`path.join(tempDir, orgSlug_trailName_fileId.jpg)` - identical in
generateTimeLapse and regenerateAndStore. -/
def destPath (tempDir orgSlug trailName fileId : String) : String :=
  tempDir ++ "/" ++ orgSlug ++ "_" ++ trailName ++ "_" ++ fileId ++ ".jpg"

/-- One downloaded frame: local scratch path plus the capture time
(`new Date(file.createdTime).getTime()`). -/
structure Frame where
  path : String
  createdTime : Int
  deriving DecidableEq

/-- The download loop shared by generateTimeLapse and
regenerateAndStore: every file is attempted (trace), a file whose
download fails is logged and dropped, a success contributes a
(path, createdTime) entry in listing order. -/
def downloadFrames (env : Env) (tempDir orgSlug trailName : String)
    (files : List StoreObj) : List Frame × List Effect :=
  ((files.filter (fun f => !env.downloadFails f.id)).map
      (fun f => { path := destPath tempDir orgSlug trailName f.id,
                  createdTime := f.createdTime }),
   files.map (fun f => Effect.download f.id))

/-- Ordering used by the sort call
`imageMetadata.sort((a, b) => a.createdTime - b.createdTime)`. -/
def frameOrder : Frame → Frame → Prop :=
  fun a b => a.createdTime ≤ b.createdTime

instance : DecidableRel frameOrder := fun a b => Int.decLe a.createdTime b.createdTime

instance : IsTotal Frame frameOrder := ⟨fun a b => Int.le_total a.createdTime b.createdTime⟩

instance : IsTrans Frame frameOrder := ⟨fun _ _ _ h h' => Int.le_trans h h'⟩

/-- Model of the `Array.prototype.sort` call on the frame metadata (a
stable comparison sort by `createdTime`). -/
def sortFrames (meta : List Frame) : List Frame :=
  meta.insertionSort frameOrder

/-- The frame-path sequence handed to the encoder:
`imageMetadata.sort(...); const allImages = imageMetadata.map(img => img.path)`. -/
def encoderInput (meta : List Frame) : List String :=
  (sortFrames meta).map Frame.path

/-- Rejection reasons of createGif. -/
inductive GifErr where
  | emptyInput
  | loadFailure
  | streamFailure
  deriving DecidableEq

/-- The frames surviving the per-frame skip logic of createGif's loop
(a load/draw failure is logged and the frame skipped). -/
def survivors (env : Env) (imagePaths : List String) : List String :=
  ((imagePaths.enum).filter (fun p => !env.frameFails p.1)).map Prod.snd

/-- timelapseService.createGif: rejects on empty input, on a failure of
the initial dimension probe (`loadImage(imagePaths[0])` before the
loop), and on a write-stream error; otherwise resolves with the output
path once the stream finishes.  The second component records the frames
actually added to the encoder (the loop skips failing frames). -/
def createGif (env : Env) (imagePaths : List String) (outputPath : String) :
    Except GifErr (String × List String) :=
  if imagePaths.length = 0 then .error .emptyInput
  else if env.dimLoadFails then .error .loadFailure
  else if env.writeFails then .error .streamFailure
  else .ok (outputPath, survivors env imagePaths)

/-- One iteration of generateTimeLapse's per-trail loop: a listing
failure is caught per trail (logged, trail skipped); otherwise the
image filter is applied and every surviving file downloaded. -/
def fetchTrail (env : Env) (st : St) (tempDir orgSlug trailName : String) :
    List Frame × List Effect :=
  if env.listFails (orgSlug, trailName) then
    ([], [Effect.listTrail (orgSlug, trailName)])
  else
    let imageFiles := (listFilesInTrail st (orgSlug, trailName)).filter isImageFile
    let d := downloadFrames env tempDir orgSlug trailName imageFiles
    (d.1, Effect.listTrail (orgSlug, trailName) :: d.2)

/-- generateTimeLapse's full fetch loop over the requested trails. -/
def fetchTrails (env : Env) (st : St) (tempDir orgSlug : String) :
    List String → List Frame × List Effect
  | [] => ([], [])
  | t :: rest =>
    let a := fetchTrail env st tempDir orgSlug t
    let b := fetchTrails env st tempDir orgSlug rest
    (a.1 ++ b.1, a.2 ++ b.2)

/-- The image files generateTimeLapse processes: per requested trail,
the trail's listing filtered to image objects (empty when that trail's
listing fails). -/
def gtlImageFiles (env : Env) (st : St) (orgSlug : String) :
    List String → List StoreObj
  | [] => []
  | t :: rest =>
    (if env.listFails (orgSlug, t) then []
     else (listFilesInTrail st (orgSlug, t)).filter isImageFile)
      ++ gtlImageFiles env st orgSlug rest

/-- Failure modes of generateTimeLapse. -/
inductive GenErr where
  | noImages
  | encoderFailure (e : GifErr)
  deriving DecidableEq

/-- The value generateTimeLapse resolves with. -/
structure GenResult where
  path : String
  imageCount : Nat
  tempFiles : List String
  deriving DecidableEq

/-- timelapseService.generateTimeLapse: fetch all trails, throw
`No images found in the specified trails.` when nothing was downloaded,
otherwise sort by creation time and encode. -/
def generateTimeLapse (env : Env) (st : St) (tempDir orgSlug : String)
    (trailNames : List String) : Except GenErr GenResult × List Effect :=
  let f := fetchTrails env st tempDir orgSlug trailNames
  if f.1.length = 0 then (.error .noImages, f.2)
  else
    let allImages := encoderInput f.1
    let outPath := tempDir ++ "/" ++ orgSlug ++ "_timelapse_" ++ toString env.now ++ ".gif"
    match createGif env allImages outPath with
    | .error e =>
        (.error (.encoderFailure e), f.2 ++ [Effect.encode allImages])
    | .ok r =>
        (.ok { path := r.1, imageCount := allImages.length, tempFiles := allImages },
         f.2 ++ [Effect.encode allImages])

/-- Step 1 of regenerateAndStore: delete every enumerated stale cache
entry; an individual deletion failure is caught and logged and the loop
continues. -/
def deleteGifs (env : Env) : St → List StoreObj → St × List Effect
  | st, [] => (st, [])
  | st, g :: rest =>
    let st1 := if env.deleteFails g.id then st else deleteObject st g.id
    let r := deleteGifs env st1 rest
    (r.1, Effect.delete g.id :: r.2)

/-- The state after regenerateAndStore's cache-invalidation step. -/
def regenSt1 (env : Env) (st : St) (k : Key) : St :=
  (deleteGifs env st (getAllTimelapseGifs st k)).1

/-- The image files regenerateAndStore sees in Step 2 (listing taken
after the invalidation step). -/
def regenImageFiles (st1 : St) (k : Key) : List StoreObj :=
  (listFilesInTrail st1 k).filter isImageFile

/-- Set the regeneration lock for a key. -/
def withLock (st : St) (k : Key) : St :=
  { st with locks := k :: st.locks }

/-- Release the regeneration lock for a key
(`this.regenerationLocks.delete(lockKey)`). -/
def releaseLock (st : St) (k : Key) : St :=
  { st with locks := st.locks.filter (fun x => x != k) }

/-- The try-block of regenerateAndStore (after the lock was taken):
Step 1 invalidate, Step 2 list+filter (skip on zero images, and on zero
successful downloads), Step 3 sort+encode, Step 4 publish.  An error
outcome carries the state and trace at the point the exception
escaped to the catch-block. -/
def regenBody (env : Env) (st : St) (tempDir orgSlug trailName : String) :
    Except (St × List Effect) (Bool × St × List Effect) :=
  let k : Key := (orgSlug, trailName)
  if env.gifEnumFails k then .error (st, [])
  else
    let d := deleteGifs env st (getAllTimelapseGifs st k)
    if env.listFails k then .error (d.1, d.2 ++ [Effect.listTrail k])
    else
      let imageFiles := regenImageFiles d.1 k
      if imageFiles.length = 0 then .ok (false, d.1, d.2 ++ [Effect.listTrail k])
      else
        let dl := downloadFrames env tempDir orgSlug trailName imageFiles
        if dl.1.length = 0 then
          .ok (false, d.1, d.2 ++ [Effect.listTrail k] ++ dl.2)
        else
          let allImages := encoderInput dl.1
          let outPath := tempDir ++ "/" ++ orgSlug ++ "_" ++ trailName ++ "_timelapse.gif"
          match createGif env allImages outPath with
          | .error _ =>
              .error (d.1, d.2 ++ [Effect.listTrail k] ++ dl.2 ++ [Effect.encode allImages])
          | .ok _ =>
              if env.uploadFails k then
                .error (d.1, d.2 ++ [Effect.listTrail k] ++ dl.2 ++ [Effect.encode allImages])
              else
                let u := uploadTimelapseGif env d.1 k
                .ok (true, u.1,
                     d.2 ++ [Effect.listTrail k] ++ dl.2
                        ++ [Effect.encode allImages, Effect.upload u.2.id])

/-- timelapseService.regenerateAndStore: skip immediately on lock
contention (no lock is created and nothing else runs); otherwise take
the lock, run the body, convert any escaped error into a `false` return
in the catch-block, and release the lock in the finally-block on every
exit path of the body. -/
def regenerateAndStore (env : Env) (st : St) (tempDir orgSlug trailName : String) :
    Bool × St × List Effect :=
  let k : Key := (orgSlug, trailName)
  if st.locks.contains k then (false, st, [])
  else
    match regenBody env (withLock st k) tempDir orgSlug trailName with
    | .ok r => (r.1, releaseLock r.2.1 k, r.2.2)
    | .error r => (false, releaseLock r.1 k, r.2)

/-- Outcomes of the POST generate-timelapse route handler. -/
inductive HandlerOutcome where
  | cachedFile (p : String)
  | freshFile (r : GenResult)
  | errorResponse (e : GenErr)
  deriving DecidableEq

/-- The handler's fall-through branch: run generateTimeLapse and serve
the result (success) or answer with a 500-class error payload. -/
def freshResponse (env : Env) (st : St) (tempDir orgSlug : String)
    (trailNames : List String) (pre : List Effect) : HandlerOutcome × List Effect :=
  let g := generateTimeLapse env st tempDir orgSlug trailNames
  match g.1 with
  | .ok r => (.freshFile r, pre ++ g.2)
  | .error e => (.errorResponse e, pre ++ g.2)

/-- The POST /:orgName/generate-timelapse handler (src/backend/routes/
api.js): for a single-trail request it first looks for a cached entry
(a lookup or cached-download failure is caught and generation proceeds);
on a hit it downloads the cached object to a scratch path and serves
it; otherwise, and for multi-trail requests, it generates fresh. -/
def handleGenerateTimelapse (env : Env) (st : St) (tempDir orgSlug : String)
    (trailNames : List String) : HandlerOutcome × List Effect :=
  match trailNames with
  | [t] =>
    let k : Key := (orgSlug, t)
    if env.gifLookupFails k then freshResponse env st tempDir orgSlug trailNames []
    else
      match getTimelapseGif st k with
      | some g =>
        if env.downloadFails g.id then
          freshResponse env st tempDir orgSlug trailNames [Effect.download g.id]
        else
          (.cachedFile (tempDir ++ "/" ++ orgSlug ++ "_" ++ t ++ "_cached_"
              ++ toString env.now ++ ".gif"),
           [Effect.download g.id])
      | none => freshResponse env st tempDir orgSlug trailNames []
  | other => freshResponse env st tempDir orgSlug other []




/-- Execution with every operation succeeding. -/
def envOk : Env :=
  { listFails := fun _ => false, gifEnumFails := fun _ => false,
    gifLookupFails := fun _ => false, deleteFails := fun _ => false,
    downloadFails := fun _ => false, dimLoadFails := false,
    frameFails := fun _ => false, writeFails := false,
    uploadFails := fun _ => false, now := 7 }

/-- A pre-existing cache entry for trail t of organization o. -/
def gifObj : StoreObj :=
  { id := "g1", name := "_timelapse.gif", mimeType := "image/gif", createdTime := 0 }

/-- A source photo in trail t. -/
def imgObj : StoreObj :=
  { id := "p1", name := "photo1.jpg", mimeType := "image/jpeg", createdTime := 5 }

/-- Store holding only a stale cache entry for ("o", "t") and no images. -/
def stCacheOnly : St := { store := [(("o", "t"), gifObj)], locks := [], nextId := 0 }

/-- State in which a regeneration for ("o", "t") is already in flight. -/
def stInFlight : St := { store := [], locks := [("o", "t")], nextId := 0 }

/-- Store holding one stale cache entry and one image for ("o", "t"). -/
def stGifAndImage : St :=
  { store := [(("o", "t"), gifObj), (("o", "t"), imgObj)], locks := [], nextId := 0 }

/-- Execution in which only the deletion of object g1 fails. -/
def envDelFail : Env := { envOk with deleteFails := fun i => i == "g1" }

/-- Execution in which every per-frame load/draw in the encoder loop fails. -/
def envFramesFail : Env := { envOk with frameFails := fun _ => true }

/-- Execution in which only the write stream errors. -/
def envStreamFail : Env := { envOk with writeFails := true }

/-- Execution in which only the second frame's load/draw fails. -/
def envFrame1Fail : Env := { envOk with frameFails := fun i => i == 1 }

/-- Another source photo in trail t, captured earlier than p1. -/
def imgObj2 : StoreObj :=
  { id := "p2", name := "photo2.jpg", mimeType := "image/jpeg", createdTime := 3 }

/-- Store holding two images (no cache entry) for ("o", "t"). -/
def stTwoImages : St :=
  { store := [(("o", "t"), imgObj), (("o", "t"), imgObj2)], locks := [], nextId := 0 }

/-- Execution in which only the download of object p2 fails. -/
def envDl2Fail : Env := { envOk with downloadFails := fun i => i == "p2" }

theorem withLock_store (st : St) (k : Key) : (withLock st k).store = st.store := rfl

theorem releaseLock_store (st : St) (k : Key) : (releaseLock st k).store = st.store := rfl

theorem listFilesInTrail_congr {a b : St} (h : a.store = b.store) (k : Key) :
    listFilesInTrail a k = listFilesInTrail b k := by
  unfold listFilesInTrail; rw [h]

theorem getAllTimelapseGifs_congr {a b : St} (h : a.store = b.store) (k : Key) :
    getAllTimelapseGifs a k = getAllTimelapseGifs b k := by
  unfold getAllTimelapseGifs; rw [listFilesInTrail_congr h]

theorem regenImageFiles_congr {a b : St} (h : a.store = b.store) (k : Key) :
    regenImageFiles a k = regenImageFiles b k := by
  unfold regenImageFiles; rw [listFilesInTrail_congr h]

theorem deleteGifs_events (env : Env) (st : St) (gifs : List StoreObj) :
    (deleteGifs env st gifs).2 = gifs.map (fun g => Effect.delete g.id) := by
  induction gifs generalizing st with
  | nil => rfl
  | cons g rest ih => simp [deleteGifs, ih]

theorem deleteGifs_locks (env : Env) (st : St) (gifs : List StoreObj) :
    (deleteGifs env st gifs).1.locks = st.locks := by
  induction gifs generalizing st with
  | nil => rfl
  | cons g rest ih =>
    by_cases hg : env.deleteFails g.id <;> simp [deleteGifs, hg, ih, deleteObject]

theorem deleteGifs_nextId (env : Env) (st : St) (gifs : List StoreObj) :
    (deleteGifs env st gifs).1.nextId = st.nextId := by
  induction gifs generalizing st with
  | nil => rfl
  | cons g rest ih =>
    by_cases hg : env.deleteFails g.id <;> simp [deleteGifs, hg, ih, deleteObject]

theorem deleteGifs_store (env : Env) (st : St) (gifs : List StoreObj) :
    (deleteGifs env st gifs).1.store
      = st.store.filter (fun p => gifs.all (fun g => env.deleteFails g.id || p.2.id != g.id)) := by
  induction gifs generalizing st with
  | nil => simp [deleteGifs]
  | cons g rest ih =>
    by_cases hg : env.deleteFails g.id
    · simp [deleteGifs, hg, ih]
    · simp only [deleteGifs, hg, Bool.false_eq_true, if_false, ih, deleteObject,
        List.filter_filter, List.all_cons, Bool.false_or]
      exact List.filter_congr (fun p _ => by rw [Bool.and_comm])

theorem regenSt1_store (env : Env) (st : St) (k : Key) :
    (regenSt1 env st k).store
      = st.store.filter
          (fun p => (getAllTimelapseGifs st k).all
            (fun g => env.deleteFails g.id || p.2.id != g.id)) :=
  deleteGifs_store env st (getAllTimelapseGifs st k)

theorem regenSt1_locks (env : Env) (st : St) (k : Key) :
    (regenSt1 env st k).locks = st.locks :=
  deleteGifs_locks env st (getAllTimelapseGifs st k)

theorem regenSt1_nextId (env : Env) (st : St) (k : Key) :
    (regenSt1 env st k).nextId = st.nextId :=
  deleteGifs_nextId env st (getAllTimelapseGifs st k)

theorem regenSt1_store_congr (env : Env) (st : St) (k k1 : Key) :
    (regenSt1 env (withLock st k1) k).store = (regenSt1 env st k).store := by
  rw [regenSt1_store, regenSt1_store, withLock_store,
    getAllTimelapseGifs_congr (withLock_store st k1) k]

theorem regenSt1_no_cache (env : Env) (st : St) (k : Key)
    (h : ∀ i, env.deleteFails i = false) :
    getAllTimelapseGifs (regenSt1 env st k) k = [] := by
  unfold getAllTimelapseGifs
  rw [List.filter_eq_nil_iff]
  intro f hf
  unfold listFilesInTrail at hf
  rw [regenSt1_store] at hf
  simp only [List.mem_map, List.mem_filter] at hf
  obtain ⟨p, ⟨⟨hmem, hall⟩, hkey⟩, hsnd⟩ := hf
  intro hcache
  have hgif : f ∈ getAllTimelapseGifs st k := by
    unfold getAllTimelapseGifs listFilesInTrail
    simp only [List.mem_filter, List.mem_map]
    exact ⟨⟨p, ⟨hmem, hkey⟩, hsnd⟩, hcache⟩
  have := List.all_eq_true.mp hall f hgif
  rw [h f.id] at this
  simp [hsnd] at this

theorem regenImageFiles_nil (env : Env) (st : St) (k : Key)
    (h : (listFilesInTrail st k).filter isImageFile = []) :
    regenImageFiles (regenSt1 env st k) k = [] := by
  have hsub : List.Sublist (regenImageFiles (regenSt1 env st k) k)
      ((listFilesInTrail st k).filter isImageFile) := by
    unfold regenImageFiles listFilesInTrail
    rw [regenSt1_store]
    exact (((List.filter_sublist _).filter _).map _).filter _
  rw [h] at hsub
  exact List.sublist_nil.mp hsub

theorem sortFrames_sorted (meta : List Frame) :
    (sortFrames meta).Pairwise frameOrder :=
  List.sorted_insertionSort frameOrder meta

theorem sortFrames_perm (meta : List Frame) : (sortFrames meta).Perm meta :=
  List.perm_insertionSort frameOrder meta

theorem sortFrames_length (meta : List Frame) :
    (sortFrames meta).length = meta.length :=
  (sortFrames_perm meta).length_eq

theorem encoderInput_length (meta : List Frame) :
    (encoderInput meta).length = meta.length := by
  unfold encoderInput
  rw [List.length_map, sortFrames_length]

theorem length_filter_split {α : Type} (p : α → Bool) (l : List α) :
    (l.filter (fun a => !p a)).length + (l.filter p).length = l.length := by
  induction l with
  | nil => rfl
  | cons a l ih =>
    by_cases ha : p a <;> simp [List.filter_cons, ha] <;> omega

theorem downloadFrames_events (env : Env) (tempDir orgSlug trailName : String)
    (files : List StoreObj) :
    (downloadFrames env tempDir orgSlug trailName files).2
      = files.map (fun f => Effect.download f.id) := rfl

theorem fetchTrails_evs_shape (env : Env) (st : St) (tempDir orgSlug : String)
    (trails : List String) :
    ∀ e ∈ (fetchTrails env st tempDir orgSlug trails).2,
      (∃ k, e = Effect.listTrail k) ∨ (∃ i, e = Effect.download i) := by
  induction trails with
  | nil => intro e he; cases he
  | cons t rest ih =>
    intro e he
    simp only [fetchTrails, List.mem_append] at he
    rcases he with he | he
    · unfold fetchTrail at he
      by_cases ht : env.listFails (orgSlug, t)
      · simp only [ht, if_pos, List.mem_singleton] at he
        exact .inl ⟨_, he⟩
      · simp only [ht, Bool.false_eq_true, if_false, List.mem_cons, downloadFrames_events,
          List.mem_map] at he
        rcases he with he | ⟨f, _, he⟩
        · exact .inl ⟨_, he⟩
        · exact .inr ⟨_, he.symm⟩
    · exact ih e he

theorem encode_not_mem_fetchTrails (env : Env) (st : St) (tempDir orgSlug : String)
    (trails : List String) (ps : List String) :
    Effect.encode ps ∉ (fetchTrails env st tempDir orgSlug trails).2 := by
  intro h
  rcases fetchTrails_evs_shape env st tempDir orgSlug trails _ h with ⟨k, hk⟩ | ⟨i, hi⟩
  · exact Effect.noConfusion hk
  · exact Effect.noConfusion hi

theorem upload_not_mem_gen (env : Env) (st : St) (tempDir orgSlug : String)
    (trails : List String) (i : String) :
    Effect.upload i ∉ (generateTimeLapse env st tempDir orgSlug trails).2 := by
  intro h
  simp only [generateTimeLapse] at h
  split at h
  · rcases fetchTrails_evs_shape env st tempDir orgSlug trails _ h with ⟨k, hk⟩ | ⟨j, hj⟩
    · exact Effect.noConfusion hk
    · exact Effect.noConfusion hj
  · split at h <;>
    · simp only [List.mem_append, List.mem_singleton] at h
      rcases h with h | h
      · rcases fetchTrails_evs_shape env st tempDir orgSlug trails _ h with ⟨k, hk⟩ | ⟨j, hj⟩
        · exact Effect.noConfusion hk
        · exact Effect.noConfusion hj
      · exact Effect.noConfusion h

theorem delete_not_mem_gen (env : Env) (st : St) (tempDir orgSlug : String)
    (trails : List String) (i : String) :
    Effect.delete i ∉ (generateTimeLapse env st tempDir orgSlug trails).2 := by
  intro h
  simp only [generateTimeLapse] at h
  split at h
  · rcases fetchTrails_evs_shape env st tempDir orgSlug trails _ h with ⟨k, hk⟩ | ⟨j, hj⟩
    · exact Effect.noConfusion hk
    · exact Effect.noConfusion hj
  · split at h <;>
    · simp only [List.mem_append, List.mem_singleton] at h
      rcases h with h | h
      · rcases fetchTrails_evs_shape env st tempDir orgSlug trails _ h with ⟨k, hk⟩ | ⟨j, hj⟩
        · exact Effect.noConfusion hk
        · exact Effect.noConfusion hj
      · exact Effect.noConfusion h

theorem regenBody_ok_locks (env : Env) (st : St) (td o t : String)
    {b : Bool} {st1 : St} {evs : List Effect}
    (h : regenBody env st td o t = .ok (b, st1, evs)) : st1.locks = st.locks := by
  simp only [regenBody] at h
  split at h
  · exact Except.noConfusion h
  · split at h
    · exact Except.noConfusion h
    · split at h
      · simp only [Except.ok.injEq, Prod.mk.injEq] at h
        obtain ⟨-, h2, -⟩ := h
        rw [← h2, deleteGifs_locks]
      · split at h
        · simp only [Except.ok.injEq, Prod.mk.injEq] at h
          obtain ⟨-, h2, -⟩ := h
          rw [← h2, deleteGifs_locks]
        · split at h
          · exact Except.noConfusion h
          · split at h
            · exact Except.noConfusion h
            · simp only [Except.ok.injEq, Prod.mk.injEq] at h
              obtain ⟨-, h2, -⟩ := h
              rw [← h2]
              simp [uploadTimelapseGif, deleteGifs_locks]

theorem regenBody_error_locks (env : Env) (st : St) (td o t : String)
    {st1 : St} {evs : List Effect}
    (h : regenBody env st td o t = .error (st1, evs)) : st1.locks = st.locks := by
  simp only [regenBody] at h
  split at h
  · simp only [Except.error.injEq, Prod.mk.injEq] at h
    obtain ⟨h2, -⟩ := h
    rw [← h2]
  · split at h
    · simp only [Except.error.injEq, Prod.mk.injEq] at h
      obtain ⟨h2, -⟩ := h
      rw [← h2, deleteGifs_locks]
    · split at h
      · exact Except.noConfusion h
      · split at h
        · exact Except.noConfusion h
        · split at h
          · simp only [Except.error.injEq, Prod.mk.injEq] at h
            obtain ⟨h2, -⟩ := h
            rw [← h2, deleteGifs_locks]
          · split at h
            · simp only [Except.error.injEq, Prod.mk.injEq] at h
              obtain ⟨h2, -⟩ := h
              rw [← h2, deleteGifs_locks]
            · exact Except.noConfusion h

theorem regenBody_true_shape (env : Env) (st : St) (td o t : String)
    {st1 : St} {evs : List Effect}
    (h : regenBody env st td o t = .ok (true, st1, evs)) :
    st1 = (uploadTimelapseGif env (regenSt1 env st (o, t)) (o, t)).1 ∧
    evs = (getAllTimelapseGifs st (o, t)).map (fun g => Effect.delete g.id)
        ++ [Effect.listTrail (o, t)]
        ++ (downloadFrames env td o t (regenImageFiles (regenSt1 env st (o, t)) (o, t))).2
        ++ [Effect.encode (encoderInput
              (downloadFrames env td o t (regenImageFiles (regenSt1 env st (o, t)) (o, t))).1),
            Effect.upload ("gif-" ++ toString (regenSt1 env st (o, t)).nextId)] := by
  simp only [regenBody] at h
  split at h
  · exact Except.noConfusion h
  · split at h
    · exact Except.noConfusion h
    · split at h
      · simp at h
      · split at h
        · simp at h
        · split at h
          · exact Except.noConfusion h
          · split at h
            · exact Except.noConfusion h
            · simp only [Except.ok.injEq, Prod.mk.injEq, true_and] at h
              obtain ⟨h2, h3⟩ := h
              constructor
              · exact h2.symm
              · rw [← h3, deleteGifs_events]
                simp only [uploadTimelapseGif, freshGif]
                simp [regenSt1, List.append_assoc]

theorem regenBody_false_no_upload (env : Env) (st : St) (td o t : String)
    {st1 : St} {evs : List Effect}
    (h : regenBody env st td o t = .ok (false, st1, evs)) :
    ∀ i, Effect.upload i ∉ evs := by
  intro i hi
  simp only [regenBody] at h
  split at h
  · exact Except.noConfusion h
  · split at h
    · exact Except.noConfusion h
    · split at h
      · simp only [Except.ok.injEq, Prod.mk.injEq, true_and] at h
        obtain ⟨-, h3⟩ := h
        rw [← h3] at hi
        simp [deleteGifs_events] at hi
      · split at h
        · simp only [Except.ok.injEq, Prod.mk.injEq, true_and] at h
          obtain ⟨-, h3⟩ := h
          rw [← h3] at hi
          simp [deleteGifs_events, downloadFrames_events] at hi
        · split at h
          · exact Except.noConfusion h
          · split at h
            · exact Except.noConfusion h
            · simp at h

theorem regenBody_error_no_upload (env : Env) (st : St) (td o t : String)
    {st1 : St} {evs : List Effect}
    (h : regenBody env st td o t = .error (st1, evs)) :
    ∀ i, Effect.upload i ∉ evs := by
  intro i hi
  simp only [regenBody] at h
  split at h
  · simp only [Except.error.injEq, Prod.mk.injEq] at h
    obtain ⟨-, h3⟩ := h
    rw [← h3] at hi
    cases hi
  · split at h
    · simp only [Except.error.injEq, Prod.mk.injEq] at h
      obtain ⟨-, h3⟩ := h
      rw [← h3] at hi
      simp [deleteGifs_events] at hi
    · split at h
      · exact Except.noConfusion h
      · split at h
        · exact Except.noConfusion h
        · split at h
          · simp only [Except.error.injEq, Prod.mk.injEq] at h
            obtain ⟨-, h3⟩ := h
            rw [← h3] at hi
            simp [deleteGifs_events, downloadFrames_events] at hi
          · split at h
            · simp only [Except.error.injEq, Prod.mk.injEq] at h
              obtain ⟨-, h3⟩ := h
              rw [← h3] at hi
              simp [deleteGifs_events, downloadFrames_events] at hi
            · exact Except.noConfusion h









/-- C1, counterexample: on a trail whose listing yields zero image objects
but which holds a pre-existing cache entry, regenerateAndStore (with every
store operation succeeding) returns false yet the pre-existing cache entry
is gone when the call returns - the invalidation step deleted it before
the listing, refuting the claim that it stays present and unchanged. -/
theorem C1_counterexample :
    (regenerateAndStore envOk stCacheOnly "tmp" "o" "t").1 = false ∧
    getAllTimelapseGifs stCacheOnly ("o", "t") = [gifObj] ∧
    getAllTimelapseGifs (regenerateAndStore envOk stCacheOnly "tmp" "o" "t").2.1 ("o", "t")
      = [] :=
  ⟨rfl, rfl, rfl⟩

/-- C1, amended: when, after acquiring the lock, the trail's listing yields
zero image objects, the call returns false, but pre-existing cache entries
are not preserved: the invalidation step that runs before the listing has
already deleted them (each best-effort), so when every deletion succeeds no
cache entry for the trail remains when the call returns. -/
theorem C1_empty_trail_skip (env : Env) (st : St) (td o t : String)
    (hLock : st.locks.contains (o, t) = false)
    (hEnum : env.gifEnumFails (o, t) = false)
    (hList : env.listFails (o, t) = false)
    (hDel : ∀ i, env.deleteFails i = false)
    (hImg : (listFilesInTrail st (o, t)).filter isImageFile = []) :
    (regenerateAndStore env st td o t).1 = false ∧
    getAllTimelapseGifs (regenerateAndStore env st td o t).2.1 (o, t) = [] := by
  have hImg' : (listFilesInTrail (withLock st (o, t)) (o, t)).filter isImageFile = [] := by
    rw [listFilesInTrail_congr (withLock_store st (o, t))]; exact hImg
  have h0 : regenImageFiles
      (deleteGifs env (withLock st (o, t))
        (getAllTimelapseGifs (withLock st (o, t)) (o, t))).1 (o, t) = [] :=
    regenImageFiles_nil env (withLock st (o, t)) (o, t) hImg'
  have hcache : getAllTimelapseGifs (regenSt1 env (withLock st (o, t)) (o, t)) (o, t) = [] :=
    regenSt1_no_cache env (withLock st (o, t)) (o, t) hDel
  simp only [regenerateAndStore, regenBody, hLock, hEnum, hList, Bool.false_eq_true,
    if_false, h0, List.length_nil, if_pos]
  refine ⟨trivial, ?_⟩
  rw [getAllTimelapseGifs_congr (releaseLock_store _ _)]
  exact hcache

/-- C1, witness: the amended statement at a concrete input (a store with a
stale cache entry and no images, every operation succeeding). -/
theorem C1_witness :
    (regenerateAndStore envOk stCacheOnly "tmp" "o" "t").1 = false ∧
    getAllTimelapseGifs (regenerateAndStore envOk stCacheOnly "tmp" "o" "t").2.1 ("o", "t")
      = [] :=
  C1_empty_trail_skip envOk stCacheOnly "tmp" "o" "t" rfl rfl rfl (fun _ => rfl) rfl

/-- C2, counterexample: a call that hits lock contention returns false, but
at the moment it returns the lock entry for the key is still present (it
belongs to the in-flight call), refuting the claim that on every exit path
- including the contention skip - the lock entry has been removed by the
time the call returns. -/
theorem C2_counterexample :
    (regenerateAndStore envOk stInFlight "tmp" "o" "t").1 = false ∧
    (("o", "t") : Key) ∈ (regenerateAndStore envOk stInFlight "tmp" "o" "t").2.1.locks := by
  exact ⟨rfl, by decide⟩

/-- C2, amended: a call that starts while another call for the same key is
in flight returns false immediately with no store work and no state change
(in particular it does not remove the in-flight call's lock entry), and a
call that acquires the lock has removed its lock entry on every one of its
exit paths by the time it returns, so at most one regeneration per key is
in flight in one process. -/
theorem C2_lock_discipline (env : Env) (st : St) (td o t : String) :
    (st.locks.contains (o, t) = true →
      regenerateAndStore env st td o t = (false, st, [])) ∧
    (st.locks.contains (o, t) = false →
      ((o, t) : Key) ∉ (regenerateAndStore env st td o t).2.1.locks) := by
  constructor
  · intro h
    simp only [regenerateAndStore, h, if_true]
  · intro h
    simp only [regenerateAndStore, h, Bool.false_eq_true, if_false]
    cases hb : regenBody env (withLock st (o, t)) td o t with
    | ok r =>
      obtain ⟨b, st1, evs⟩ := r
      have hl : st1.locks = (withLock st (o, t)).locks := regenBody_ok_locks env _ td o t hb
      simp only [releaseLock, hl, withLock, List.mem_filter]
      intro hmem
      simp at hmem
    | error r =>
      obtain ⟨st1, evs⟩ := r
      have hl : st1.locks = (withLock st (o, t)).locks := regenBody_error_locks env _ td o t hb
      simp only [releaseLock, hl, withLock, List.mem_filter]
      intro hmem
      simp at hmem

/-- C2, witness: the amended statement at concrete inputs - contention on a
locked state and lock release on an unlocked state. -/
theorem C2_witness :
    (regenerateAndStore envOk stInFlight "tmp" "o" "t" = (false, stInFlight, []) ∧
      (("o", "t") : Key) ∉ (regenerateAndStore envOk stGifAndImage "tmp" "o" "t").2.1.locks) :=
  ⟨(C2_lock_discipline envOk stInFlight "tmp" "o" "t").1 rfl,
   (C2_lock_discipline envOk stGifAndImage "tmp" "o" "t").2 rfl⟩

/-- C4: regenerateAndStore is total in the model (it never propagates an
exception: the body's error outcomes are absorbed by the catch-block) and
it returns true exactly when a new cache entry was uploaded during the
call, i.e. exactly when an upload effect occurs in its trace; lock
contention, zero frames and every internal error yield false. -/
theorem C4_boolean_contract (env : Env) (st : St) (td o t : String) :
    ((regenerateAndStore env st td o t).1 = true ↔
      ∃ i, Effect.upload i ∈ (regenerateAndStore env st td o t).2.2) ∧
    (∀ st1 evs, regenBody env (withLock st (o, t)) td o t = .error (st1, evs) →
      (regenerateAndStore env st td o t).1 = false) := by
  by_cases hc : st.locks.contains (o, t) = true
  · constructor
    · simp only [regenerateAndStore, hc, if_true]
      simp
    · intro st1 evs _
      simp only [regenerateAndStore, hc, if_true]
  · simp only [regenerateAndStore]
    rw [if_neg hc]
    cases hb : regenBody env (withLock st (o, t)) td o t with
    | ok r =>
      obtain ⟨b, st1, evs⟩ := r
      constructor
      · cases b with
        | true =>
          simp only [true_iff]
          obtain ⟨-, hevs⟩ := regenBody_true_shape env _ td o t hb
          refine ⟨"gif-" ++ toString (regenSt1 env (withLock st (o, t)) (o, t)).nextId, ?_⟩
          rw [hevs]
          simp
        | false =>
          simp only [Bool.false_eq_true, false_iff]
          intro ⟨i, hi⟩
          exact regenBody_false_no_upload env _ td o t hb i hi
      · intro st2 evs2 h2
        exact Except.noConfusion h2
    | error r =>
      obtain ⟨st1, evs⟩ := r
      constructor
      · simp only [Bool.false_eq_true, false_iff]
        intro ⟨i, hi⟩
        exact regenBody_error_no_upload env _ td o t hb i hi
      · intro st2 evs2 _
        rfl

/-- C4, witness: the boolean contract at a concrete input on which the
call publishes a new entry (the if-and-only-if instantiated and its
forward direction discharged concretely). -/
theorem C4_witness :
    ∃ i, Effect.upload i ∈ (regenerateAndStore envOk stGifAndImage "tmp" "o" "t").2.2 :=
  (C4_boolean_contract envOk stGifAndImage "tmp" "o" "t").1.mp rfl

/-- C10: with a store holding a stale cache entry g1 and one image, and an
execution in which only the deletion of g1 fails, the deletion failure is
absorbed (the delete is attempted, the run continues), the call returns
true, and two cache-entry objects remain in the store - the undeleted
stale entry and the freshly published one. -/
theorem C10_delete_failure_tolerated :
    (regenerateAndStore envDelFail stGifAndImage "tmp" "o" "t").1 = true ∧
    Effect.delete "g1" ∈ (regenerateAndStore envDelFail stGifAndImage "tmp" "o" "t").2.2 ∧
    (getAllTimelapseGifs
        (regenerateAndStore envDelFail stGifAndImage "tmp" "o" "t").2.1 ("o", "t")).length
      = 2 := by
  refine ⟨rfl, ?_, rfl⟩
  decide



/-- C7, counterexample: with a non-empty input whose first-frame dimension
probe succeeds but in which every per-frame load in the encoding loop
fails, zero frames survive the skip logic and createGif still resolves
successfully (with a frameless output), refuting the claim that it rejects
with an encoding error in that case - the code has no zero-survivor check. -/
theorem C7_counterexample :
    createGif envFramesFail ["a"] "out" = .ok ("out", []) := rfl

/-- C7, amended: createGif rejects when the input list is empty and when
the output write stream errors (after a successful dimension probe); an
individual frame failure only removes that frame from the encoded
sequence, and the call resolves with the surviving frames - also when
zero frames survive. -/
theorem C7_encoder_contract (env : Env) (paths : List String) (out : String) :
    (createGif env [] out = .error .emptyInput) ∧
    (paths ≠ [] → env.dimLoadFails = false → env.writeFails = true →
      createGif env paths out = .error .streamFailure) ∧
    (paths ≠ [] → env.dimLoadFails = false → env.writeFails = false →
      createGif env paths out = .ok (out, survivors env paths)) := by
  refine ⟨rfl, ?_, ?_⟩ <;>
  · intro hne hdim hw
    have hlen : ¬(paths.length = 0) := by
      simpa [List.length_eq_zero] using hne
    unfold createGif
    rw [if_neg hlen, hdim, hw]
    simp

/-- C7, witness: the amended contract at concrete inputs - empty input,
stream failure, and the skip of one failing middle frame. -/
theorem C7_witness :
    createGif envOk [] "out" = .error .emptyInput ∧
    createGif envStreamFail ["a"] "out" = .error .streamFailure ∧
    createGif envFrame1Fail ["a", "b", "c"] "out" = .ok ("out", ["a", "c"]) := by
  refine ⟨(C7_encoder_contract envOk [] "out").1,
    (C7_encoder_contract envStreamFail ["a"] "out").2.1 (by decide) rfl rfl,
    ?_⟩
  rw [(C7_encoder_contract envFrame1Fail ["a", "b", "c"] "out").2.2 (by decide) rfl rfl]
  rfl

/-- C9, counterexample: scratch paths are not unique across distinct
(organization, trail) keys - the underscore-joined path format makes the
keys ("demo", "a_b") and ("demo_a", "b") collide on the same object id,
and concurrent calls over the same trail (which the uncached generate
path permits) use identical paths; this refutes the claimed cross-call
uniqueness. -/
theorem C9_counterexample :
    destPath "tmp" "demo" "a_b" "5" = destPath "tmp" "demo_a" "b" "5" ∧
    ("demo", "a_b") ≠ (("demo_a", "b") : Key) :=
  ⟨rfl, by decide⟩

/-- C9, amended: scratch paths are determined by (organization, trail,
objectId), and within one call (organization and trail fixed) distinct
object ids always give distinct scratch paths. -/
theorem C9_destPath_injective (td o t i j : String)
    (h : destPath td o t i = destPath td o t j) : i = j := by
  unfold destPath at h
  have hd := congrArg String.data h
  simp only [String.data_append] at hd
  have h1 := List.append_cancel_right hd
  have h2 := List.append_cancel_left h1
  cases i
  cases j
  exact congrArg String.mk h2

/-- C9, witness: the amended statement applied at a concrete input. -/
theorem C9_witness : ("5" : String) = "5" :=
  C9_destPath_injective "tmp" "o" "t" "5" "5" rfl

theorem regenBody_ok_encode (env : Env) (st : St) (td o t : String)
    {b : Bool} {st1 : St} {evs : List Effect}
    (h : regenBody env st td o t = .ok (b, st1, evs)) :
    ∀ ps, Effect.encode ps ∈ evs →
      ps = encoderInput
        (downloadFrames env td o t (regenImageFiles (regenSt1 env st (o, t)) (o, t))).1 := by
  intro ps hps
  simp only [regenBody] at h
  split at h
  · exact Except.noConfusion h
  · split at h
    · exact Except.noConfusion h
    · split at h
      · simp only [Except.ok.injEq, Prod.mk.injEq, true_and] at h
        obtain ⟨-, -, h3⟩ := h
        rw [← h3] at hps
        simp [deleteGifs_events] at hps
      · split at h
        · simp only [Except.ok.injEq, Prod.mk.injEq, true_and] at h
          obtain ⟨-, -, h3⟩ := h
          rw [← h3] at hps
          simp [deleteGifs_events, downloadFrames_events] at hps
        · split at h
          · exact Except.noConfusion h
          · split at h
            · exact Except.noConfusion h
            · simp only [Except.ok.injEq, Prod.mk.injEq, true_and] at h
              obtain ⟨-, -, h3⟩ := h
              rw [← h3] at hps
              simp [deleteGifs_events, downloadFrames_events] at hps
              exact hps

theorem regenBody_error_encode (env : Env) (st : St) (td o t : String)
    {st1 : St} {evs : List Effect}
    (h : regenBody env st td o t = .error (st1, evs)) :
    ∀ ps, Effect.encode ps ∈ evs →
      ps = encoderInput
        (downloadFrames env td o t (regenImageFiles (regenSt1 env st (o, t)) (o, t))).1 := by
  intro ps hps
  simp only [regenBody] at h
  split at h
  · simp only [Except.error.injEq, Prod.mk.injEq] at h
    obtain ⟨-, h3⟩ := h
    rw [← h3] at hps
    cases hps
  · split at h
    · simp only [Except.error.injEq, Prod.mk.injEq] at h
      obtain ⟨-, h3⟩ := h
      rw [← h3] at hps
      simp [deleteGifs_events] at hps
    · split at h
      · exact Except.noConfusion h
      · split at h
        · exact Except.noConfusion h
        · split at h
          · simp only [Except.error.injEq, Prod.mk.injEq] at h
            obtain ⟨-, h3⟩ := h
            rw [← h3] at hps
            simp [deleteGifs_events, downloadFrames_events] at hps
            exact hps
          · split at h
            · simp only [Except.error.injEq, Prod.mk.injEq] at h
              obtain ⟨-, h3⟩ := h
              rw [← h3] at hps
              simp [deleteGifs_events, downloadFrames_events] at hps
              exact hps
            · exact Except.noConfusion h

/-- C5: the frame-path sequence handed to the encoder - in
generateTimeLapse and in regenerateAndStore alike - is always the
capture-time sort of the fetched frames (first two parts, stated over the
encode effect in each call's trace), and for frames with pairwise-distinct
capture times that sort is strictly ascending in capture time whatever
order the listing produced them in (third part). -/
theorem C5_frames_sorted (env : Env) (st : St) (td o t : String)
    (trails : List String) :
    (∀ ps, Effect.encode ps ∈ (generateTimeLapse env st td o trails).2 →
      ps = encoderInput (fetchTrails env st td o trails).1) ∧
    (∀ ps, Effect.encode ps ∈ (regenerateAndStore env st td o t).2.2 →
      ps = encoderInput
        (downloadFrames env td o t (regenImageFiles (regenSt1 env st (o, t)) (o, t))).1) ∧
    (∀ meta : List Frame,
      meta.Pairwise (fun a b => a.createdTime ≠ b.createdTime) →
      (sortFrames meta).Pairwise (fun a b => a.createdTime < b.createdTime) ∧
      (sortFrames meta).Perm meta) := by
  refine ⟨?_, ?_, ?_⟩
  · intro ps hps
    simp only [generateTimeLapse] at hps
    split at hps
    · exact absurd hps (encode_not_mem_fetchTrails env st td o trails ps)
    · split at hps <;>
      · rcases List.mem_append.mp hps with h | h
        · exact absurd h (encode_not_mem_fetchTrails env st td o trails ps)
        · simpa using h
  · intro ps hps
    have hcongr :
        regenImageFiles (regenSt1 env (withLock st (o, t)) (o, t)) (o, t)
          = regenImageFiles (regenSt1 env st (o, t)) (o, t) :=
      regenImageFiles_congr (regenSt1_store_congr env st (o, t) (o, t)) (o, t)
    simp only [regenerateAndStore] at hps
    by_cases hc : st.locks.contains (o, t) = true
    · rw [if_pos hc] at hps
      cases hps
    · rw [if_neg hc] at hps
      cases hb : regenBody env (withLock st (o, t)) td o t with
      | ok r =>
        obtain ⟨b, st1, evs⟩ := r
        rw [hb] at hps
        have := regenBody_ok_encode env (withLock st (o, t)) td o t hb ps hps
        rw [hcongr] at this
        exact this
      | error r =>
        obtain ⟨st1, evs⟩ := r
        rw [hb] at hps
        have := regenBody_error_encode env (withLock st (o, t)) td o t hb ps hps
        rw [hcongr] at this
        exact this
  · intro meta hd
    have hs := sortFrames_sorted meta
    have hp := sortFrames_perm meta
    have hd1 : (sortFrames meta).Pairwise (fun a b => a.createdTime ≠ b.createdTime) :=
      (List.Perm.pairwise_iff (fun hxy => hxy.symm) hp).mpr hd
    refine ⟨(hs.and hd1).imp ?_, hp⟩
    intro a b hab
    exact lt_of_le_of_ne hab.1 hab.2

/-- C5, witness: the sortedness part instantiated at a concrete unsorted
frame list with distinct capture times, and the encoder-input part
instantiated on a concrete successful generateTimeLapse run. -/
theorem C5_witness :
    ((sortFrames [⟨"b", 9⟩, ⟨"a", 2⟩]).Pairwise (fun a b => a.createdTime < b.createdTime) ∧
      (sortFrames [⟨"b", 9⟩, ⟨"a", 2⟩]).Perm [⟨"b", 9⟩, ⟨"a", 2⟩]) ∧
    encoderInput (fetchTrails envOk stGifAndImage "tmp" "o" ["t"]).1
      = encoderInput (fetchTrails envOk stGifAndImage "tmp" "o" ["t"]).1 :=
  ⟨(C5_frames_sorted envOk stGifAndImage "tmp" "o" "t" ["t"]).2.2
      [⟨"b", 9⟩, ⟨"a", 2⟩] (by decide),
   (C5_frames_sorted envOk stGifAndImage "tmp" "o" "t" ["t"]).1
      (encoderInput (fetchTrails envOk stGifAndImage "tmp" "o" ["t"]).1) (by decide)⟩

theorem fetchTrails_length (env : Env) (st : St) (td o : String)
    (trails : List String) :
    (fetchTrails env st td o trails).1.length
      + ((gtlImageFiles env st o trails).filter (fun f => env.downloadFails f.id)).length
      = (gtlImageFiles env st o trails).length := by
  induction trails with
  | nil => rfl
  | cons t rest ih =>
    simp only [fetchTrails, gtlImageFiles, List.filter_append, List.length_append]
    by_cases ht : env.listFails (o, t) = true
    · simp only [fetchTrail, ht, if_true]
      simpa using ih
    · simp only [fetchTrail]
      rw [if_neg ht, if_neg ht]
      simp only [downloadFrames, List.length_map]
      have hsplit := length_filter_split (fun f => env.downloadFails f.id)
        ((listFilesInTrail st (o, t)).filter isImageFile)
      omega




/-- C6: over trails whose listings all succeed and contain N image objects
of which K individual downloads fail, if K is less than N (and the encoder
itself does not fail) generateTimeLapse succeeds and its animation input
consists of exactly the N minus K successfully downloaded frames in
ascending capture order; and generateTimeLapse resolves to its no-frames
error exactly when zero frames were successfully downloaded across all
requested trails. -/
theorem C6_download_failure_tolerance (env : Env) (st : St) (td o : String)
    (trails : List String)
    (_hL : ∀ t1 ∈ trails, env.listFails (o, t1) = false) :
    ((env.dimLoadFails = false → env.writeFails = false →
      ((gtlImageFiles env st o trails).filter (fun f => env.downloadFails f.id)).length
          < (gtlImageFiles env st o trails).length →
      ∃ r, (generateTimeLapse env st td o trails).1 = Except.ok r ∧
        r.imageCount = (gtlImageFiles env st o trails).length
          - ((gtlImageFiles env st o trails).filter
              (fun f => env.downloadFails f.id)).length ∧
        (sortFrames (fetchTrails env st td o trails).1).Pairwise frameOrder)) ∧
    ((generateTimeLapse env st td o trails).1 = Except.error GenErr.noImages ↔
      (fetchTrails env st td o trails).1 = []) := by
  have hcount := fetchTrails_length env st td o trails
  constructor
  · intro hDim hWrite hlt
    have hmeta : ¬((fetchTrails env st td o trails).1.length = 0) := by omega
    have hgen : (generateTimeLapse env st td o trails).1
        = Except.ok
            { path := td ++ "/" ++ o ++ "_timelapse_" ++ toString env.now ++ ".gif",
              imageCount := (encoderInput (fetchTrails env st td o trails).1).length,
              tempFiles := encoderInput (fetchTrails env st td o trails).1 } := by
      simp only [generateTimeLapse]
      rw [if_neg hmeta]
      simp only [createGif, encoderInput_length, hDim, hWrite, Bool.false_eq_true,
        if_false]
      rw [if_neg hmeta]
    refine ⟨_, hgen, ?_, sortFrames_sorted _⟩
    show (encoderInput (fetchTrails env st td o trails).1).length = _
    rw [encoderInput_length]
    omega
  · constructor
    · intro hE
      by_cases hz : (fetchTrails env st td o trails).1.length = 0
      · exact List.length_eq_zero.mp hz
      · exfalso
        simp only [generateTimeLapse] at hE
        rw [if_neg hz] at hE
        split at hE <;> simp at hE
    · intro hnil
      have hz : (fetchTrails env st td o trails).1.length = 0 := by
        rw [hnil]; rfl
      simp only [generateTimeLapse]
      rw [if_pos hz]

/-- C6, witness: the statement at a concrete input - two image objects of
which one download fails: the call succeeds with one frame, and the
no-frames equivalence holds at this input. -/
theorem C6_witness :
    (∃ r, (generateTimeLapse envDl2Fail stTwoImages "tmp" "o" ["t"]).1 = Except.ok r ∧
      r.imageCount = (gtlImageFiles envDl2Fail stTwoImages "o" ["t"]).length
        - ((gtlImageFiles envDl2Fail stTwoImages "o" ["t"]).filter
            (fun f => envDl2Fail.downloadFails f.id)).length ∧
      (sortFrames (fetchTrails envDl2Fail stTwoImages "tmp" "o" ["t"]).1).Pairwise
        frameOrder) ∧
    ((generateTimeLapse envDl2Fail stTwoImages "tmp" "o" ["t"]).1
        = Except.error GenErr.noImages ↔
      (fetchTrails envDl2Fail stTwoImages "tmp" "o" ["t"]).1 = []) :=
  ⟨(C6_download_failure_tolerance envDl2Fail stTwoImages "tmp" "o" ["t"]
      (by decide)).1 rfl rfl (by decide),
   (C6_download_failure_tolerance envDl2Fail stTwoImages "tmp" "o" ["t"]
      (by decide)).2⟩

theorem filter_isWrite_deletes (gifs : List StoreObj) :
    (gifs.map (fun g => Effect.delete g.id)).filter Effect.isWrite
      = gifs.map (fun g => Effect.delete g.id) := by
  induction gifs with
  | nil => rfl
  | cons g r ih => simp [Effect.isWrite, ih]

theorem filter_isWrite_downloads (files : List StoreObj) :
    ((files.map (fun f => Effect.download f.id)).filter Effect.isWrite) = [] := by
  induction files with
  | nil => rfl
  | cons f r ih => simp [Effect.isWrite, ih]

theorem getAllTimelapseGifs_upload (env : Env) (s : St) (k : Key) :
    getAllTimelapseGifs (uploadTimelapseGif env s k).1 k
      = getAllTimelapseGifs s k ++ [freshGif env s] := by
  unfold getAllTimelapseGifs listFilesInTrail uploadTimelapseGif
  simp [List.filter_append, isCacheEntry, freshGif]

/-- C3: when regenerateAndStore returns true and every object-store
operation during the call succeeds, the store-write trace of the call is
exactly one delete per cache entry that existed at the start followed
(after the fetch and encode work) by exactly one upload of the new entry -
so every prior entry is deleted before the new animation is uploaded - and
at completion the store holds exactly the one freshly published cache
entry for the trail. -/
theorem C3_single_cache_entry (env : Env) (st : St) (td o t : String)
    (hDel : ∀ i, env.deleteFails i = false)
    (_hDl : ∀ i, env.downloadFails i = false)
    (_hEnum : env.gifEnumFails (o, t) = false)
    (_hList : env.listFails (o, t) = false)
    (_hUp : env.uploadFails (o, t) = false)
    (hTrue : (regenerateAndStore env st td o t).1 = true) :
    (regenerateAndStore env st td o t).2.2.filter Effect.isWrite
      = (getAllTimelapseGifs st (o, t)).map (fun g => Effect.delete g.id)
        ++ [Effect.upload ("gif-" ++ toString st.nextId)] ∧
    getAllTimelapseGifs (regenerateAndStore env st td o t).2.1 (o, t)
      = [freshGif env st] := by
  by_cases hc : st.locks.contains (o, t) = true
  · simp only [regenerateAndStore, hc, if_true] at hTrue
    exact absurd hTrue (by simp)
  · simp only [regenerateAndStore] at hTrue ⊢
    rw [if_neg hc] at hTrue ⊢
    cases hb : regenBody env (withLock st (o, t)) td o t with
    | error r =>
      rw [hb] at hTrue
      simp at hTrue
    | ok r =>
      obtain ⟨b, st1, evs⟩ := r
      cases b with
      | false =>
        rw [hb] at hTrue
        simp at hTrue
      | true =>
        obtain ⟨hst, hevs⟩ := regenBody_true_shape env (withLock st (o, t)) td o t hb
        have hg : getAllTimelapseGifs (withLock st (o, t)) (o, t)
            = getAllTimelapseGifs st (o, t) :=
          getAllTimelapseGifs_congr (withLock_store st (o, t)) (o, t)
        have hcache : getAllTimelapseGifs (regenSt1 env (withLock st (o, t)) (o, t)) (o, t)
            = [] :=
          regenSt1_no_cache env (withLock st (o, t)) (o, t) hDel
        have hfg : freshGif env (regenSt1 env (withLock st (o, t)) (o, t))
            = freshGif env st := by
          unfold freshGif
          rw [regenSt1_nextId]
          rfl
        constructor
        · show evs.filter Effect.isWrite = _
          rw [hevs, hg]
          simp only [List.filter_append, filter_isWrite_deletes, downloadFrames_events,
            filter_isWrite_downloads, List.append_nil, List.append_assoc]
          simp only [List.filter_cons, Effect.isWrite, List.filter_nil]
          simp only [uploadTimelapseGif, freshGif, regenSt1_nextId]
          rfl
        · show getAllTimelapseGifs (releaseLock st1 (o, t)) (o, t) = _
          rw [getAllTimelapseGifs_congr (releaseLock_store st1 (o, t)) (o, t), hst,
            getAllTimelapseGifs_upload, hcache, hfg]
          rfl

/-- C3, witness: the statement at a concrete input - a store with one
stale cache entry and one image, every operation succeeding: the write
trace is the delete of g1 followed by the upload of the new entry, and
exactly that entry remains. -/
theorem C3_witness :
    (regenerateAndStore envOk stGifAndImage "tmp" "o" "t").2.2.filter Effect.isWrite
      = (getAllTimelapseGifs stGifAndImage ("o", "t")).map (fun g => Effect.delete g.id)
        ++ [Effect.upload ("gif-" ++ toString stGifAndImage.nextId)] ∧
    getAllTimelapseGifs (regenerateAndStore envOk stGifAndImage "tmp" "o" "t").2.1 ("o", "t")
      = [freshGif envOk stGifAndImage] :=
  C3_single_cache_entry envOk stGifAndImage "tmp" "o" "t"
    (fun _ => rfl) (fun _ => rfl) rfl rfl rfl rfl

theorem mem_freshResponse_evs (env : Env) (st : St) (td o : String)
    (trails : List String) (pre : List Effect) {e : Effect}
    (he : e ∈ (freshResponse env st td o trails pre).2) :
    e ∈ pre ∨ e ∈ (generateTimeLapse env st td o trails).2 := by
  simp only [freshResponse] at he
  split at he <;> exact List.mem_append.mp he

theorem handler_no_write (env : Env) (st : St) (td o : String)
    (trails : List String) (i : String) :
    Effect.upload i ∉ (handleGenerateTimelapse env st td o trails).2 ∧
    Effect.delete i ∉ (handleGenerateTimelapse env st td o trails).2 := by
  have hfr : ∀ (pre : List Effect),
      (∀ e ∈ pre, (∃ j, e = Effect.download j)) →
      Effect.upload i ∉ (freshResponse env st td o trails pre).2 ∧
      Effect.delete i ∉ (freshResponse env st td o trails pre).2 := by
    intro pre hpre
    constructor <;> intro hi
    · rcases mem_freshResponse_evs env st td o trails pre hi with h | h
      · obtain ⟨j, hj⟩ := hpre _ h
        exact Effect.noConfusion hj
      · exact upload_not_mem_gen env st td o trails i h
    · rcases mem_freshResponse_evs env st td o trails pre hi with h | h
      · obtain ⟨j, hj⟩ := hpre _ h
        exact Effect.noConfusion hj
      · exact delete_not_mem_gen env st td o trails i h
  rcases trails with - | ⟨t1, - | ⟨t2, r2⟩⟩
  · exact hfr [] (by simp)
  · simp only [handleGenerateTimelapse]
    by_cases hq : env.gifLookupFails (o, t1) = true
    · simp only [hq, if_true]
      exact hfr [] (by simp)
    · rw [if_neg hq]
      cases hg : getTimelapseGif st (o, t1) with
      | none => exact hfr [] (by simp)
      | some g1 =>
        dsimp only
        by_cases hdl : env.downloadFails g1.id = true
        · simp only [hdl, if_true]
          exact hfr [Effect.download g1.id] (by simp)
        · rw [if_neg hdl]
          constructor <;> intro hi <;> simp at hi
  · exact hfr [] (by simp)

/-- C8: for a single-trail generate request with a cache hit (lookup
succeeds and the cached object's download succeeds) the handler serves
the cached object and its whole trace is that one download - no
source-frame download, no encode, no store write; when no cache entry
exists, or the request names several trails (or none), it falls through
to a fresh generation; and on no branch does the handler upload to or
delete from the store. -/
theorem C8_cache_hit_short_circuit (env : Env) (st : St) (td o : String)
    (trails : List String) (t : String) (g : StoreObj) :
    (trails = [t] → env.gifLookupFails (o, t) = false →
      getTimelapseGif st (o, t) = some g → env.downloadFails g.id = false →
      handleGenerateTimelapse env st td o trails
        = (HandlerOutcome.cachedFile
            (td ++ "/" ++ o ++ "_" ++ t ++ "_cached_" ++ toString env.now ++ ".gif"),
           [Effect.download g.id])) ∧
    (trails = [t] → env.gifLookupFails (o, t) = false →
      getTimelapseGif st (o, t) = none →
      handleGenerateTimelapse env st td o trails
        = freshResponse env st td o trails []) ∧
    (trails.length ≠ 1 →
      handleGenerateTimelapse env st td o trails
        = freshResponse env st td o trails []) ∧
    (∀ i, Effect.upload i ∉ (handleGenerateTimelapse env st td o trails).2) ∧
    (∀ i, Effect.delete i ∉ (handleGenerateTimelapse env st td o trails).2) := by
  refine ⟨?_, ?_, ?_, fun i => (handler_no_write env st td o trails i).1,
    fun i => (handler_no_write env st td o trails i).2⟩
  · intro h1 h2 h3 h4
    subst h1
    simp only [handleGenerateTimelapse]
    rw [if_neg (by simp [h2]), h3]
    dsimp only
    rw [if_neg (by simp [h4])]
  · intro h1 h2 h3
    subst h1
    simp only [handleGenerateTimelapse]
    rw [if_neg (by simp [h2]), h3]
  · intro h1
    rcases trails with - | ⟨t1, - | ⟨t2, r2⟩⟩
    · rfl
    · exact absurd rfl h1
    · rfl

/-- C8, witness: the statement at concrete inputs - a store holding a
cache entry for the trail (hit branch) and the no-write facts at the
same input. -/
theorem C8_witness :
    handleGenerateTimelapse envOk stGifAndImage "tmp" "o" ["t"]
      = (HandlerOutcome.cachedFile
          ("tmp" ++ "/" ++ "o" ++ "_" ++ "t" ++ "_cached_" ++ toString envOk.now ++ ".gif"),
         [Effect.download gifObj.id]) ∧
    handleGenerateTimelapse envOk stTwoImages "tmp" "o" ["t", "u"]
      = freshResponse envOk stTwoImages "tmp" "o" ["t", "u"] [] ∧
    Effect.upload "x" ∉ (handleGenerateTimelapse envOk stGifAndImage "tmp" "o" ["t"]).2 ∧
    Effect.delete "g1" ∉ (handleGenerateTimelapse envOk stGifAndImage "tmp" "o" ["t"]).2 :=
  ⟨(C8_cache_hit_short_circuit envOk stGifAndImage "tmp" "o" ["t"] "t" gifObj).1
      rfl rfl rfl rfl,
   (C8_cache_hit_short_circuit envOk stTwoImages "tmp" "o" ["t", "u"] "t" gifObj).2.2.1
      (by decide),
   (C8_cache_hit_short_circuit envOk stGifAndImage "tmp" "o" ["t"] "t" gifObj).2.2.2.1 "x",
   (C8_cache_hit_short_circuit envOk stGifAndImage "tmp" "o" ["t"] "t" gifObj).2.2.2.2 "g1"⟩

end StewardView
